import Mathlib

/-!
Verification of the RDT2.1 stop-and-wait file transfer implementation.

The Lean definitions below are a shallow embedding of the Python sources:
rdtftp/protocol.py (wire codec), rdtftp/receiver.py and rdtftp/sender.py
(endpoint state machines), and network_simulator_fixed.py (link emulator).
Bytes are modelled as Nat (each below 256 on real wire data), byte strings as
List Nat, machine integers as Nat with the masks the code applies, and
wall-clock times as rationals.
-/

namespace Rdt

/-- Big-endian byte encoding of the low w bytes of v, most significant byte
first. Models struct.pack integer formats (Q, I, H); the source masks each
argument to its width, which the division chain here reproduces. -/
def be : Nat → Nat → List Nat
  | 0, _ => []
  | w + 1, v => be w (v / 256) ++ [v % 256]

/-- Big-endian read of the first w bytes of a buffer (struct.unpack). -/
def beRead (w : Nat) (bs : List Nat) : Nat :=
  (bs.take w).foldl (fun a b => 256 * a + b) 0

/-- One bit step of CRC-32 (IEEE, reflected form, polynomial 0xEDB88320),
as computed by zlib.crc32. -/
def crcStep (c : Nat) : Nat :=
  if c % 2 = 1 then Nat.xor (c / 2) 0xEDB88320 else c / 2

/-- Iterated CRC bit steps. -/
def crcSteps : Nat → Nat → Nat
  | 0, c => c
  | n + 1, c => crcSteps n (crcStep c)

/-- One byte step of CRC-32. Wire bytes are below 256; the mask records that. -/
def crcByte (c b : Nat) : Nat := crcSteps 8 (Nat.xor c (b % 256))

/-- zlib.crc32 over a byte list: initial value 0xFFFFFFFF, final xor with
0xFFFFFFFF, bitwise reflected algorithm. -/
def crc32 (data : List Nat) : Nat :=
  Nat.xor (data.foldl crcByte 0xFFFFFFFF) 0xFFFFFFFF

/-- MAGIC from rdtftp/protocol.py. -/
def MAGIC : List Nat := [0xCA, 0xFE]

/-- VERSION from rdtftp/protocol.py. -/
def VERSION : Nat := 1

/-- HEADER_LEN: size of the fixed header, struct.calcsize of the format. -/
def HEADER_LEN : Nat := 32

/-- PktType values. -/
def PktType.SYN : Nat := 1

def PktType.SYN_ACK : Nat := 2

def PktType.DATA : Nat := 3

def PktType.ACK : Nat := 4

def PktType.FIN : Nat := 5

def PktType.FIN_ACK : Nat := 6

def PktType.ERR : Nat := 7

/-- Flag bits from rdtftp/protocol.py. -/
def FLAG_RESUME : Nat := 0x01

def FLAG_EOF : Nat := 0x02

def FLAG_RESUME_OK : Nat := 0x04

def FLAG_META_JSON : Nat := 0x08

/-- The Packet dataclass of rdtftp/protocol.py. -/
structure Packet where
  ptype : Nat
  flags : Nat
  file_id : Nat
  seq : Nat := 0
  ack : Nat := 0
  chunk_id : Nat := 0
  payload : List Nat := []
  deriving Repr, DecidableEq

/-- struct.pack of HEADER_FMT "!2sBBBBQIIIHI": magic(2) version(1) type(1)
flags(1) hlen(1) file_id(8) seq(4) ack(4) chunk_id(4) payload_len(2)
checksum(4), big-endian throughout. Python struct raises on an out-of-range
single-byte field where this total model masks; both agree on all in-range
arguments (the wider formats only ever receive pre-masked values). -/
def packHeader (ptype flags fid seq ack cid plen ck : Nat) : List Nat :=
  MAGIC ++ [VERSION, ptype % 256, flags % 256, HEADER_LEN] ++
    be 8 fid ++ be 4 seq ++ be 4 ack ++ be 4 cid ++ be 2 plen ++ be 4 ck

/-- Packet.encode: pack the header with the checksum field zero, compute CRC32
over header and payload, repack with the checksum written in, and append the
payload. The explicit mod operations are the source's bit masks. -/
def Packet.encode (p : Packet) : List Nat :=
  let payload_len := p.payload.length
  let header_wo_checksum :=
    packHeader p.ptype p.flags (p.file_id % 2 ^ 64) (p.seq % 2 ^ 32)
      (p.ack % 2 ^ 32) (p.chunk_id % 2 ^ 32) (payload_len % 65536) 0
  let checksum := crc32 (header_wo_checksum ++ p.payload)
  packHeader p.ptype p.flags (p.file_id % 2 ^ 64) (p.seq % 2 ^ 32)
      (p.ack % 2 ^ 32) (p.chunk_id % 2 ^ 32) (payload_len % 65536) checksum ++ p.payload

/-- ASCII byte values of a string. -/
def strBytes (s : String) : List Nat := s.toList.map Char.toNat

/-- Payload of the ERR packet returned by decode for a too-short buffer. -/
def shortPacketMsg : List Nat := strBytes ("short packet")

/-- Payload of the ERR packet returned by decode for a bad static header. -/
def badHeaderMsg : List Nat := strBytes ("bad header")

/-- Packet.decode: reject buffers shorter than 32 bytes, unpack the 32-byte
header at its fixed offsets, reject on wrong magic, version, or header-length
byte, take payload_len bytes of payload after the header (silently truncated
to the buffer remainder exactly as a Python slice), recompute the CRC over the
header with its checksum field zeroed followed by that payload, and report ok
iff the recomputed CRC equals the checksum field. -/
def Packet.decode (data : List Nat) : Packet × Bool :=
  if data.length < HEADER_LEN then
    ({ ptype := PktType.ERR, flags := 0, file_id := 0, payload := shortPacketMsg }, false)
  else
    let hdr := data.take HEADER_LEN
    let magic := hdr.take 2
    let ver := hdr.getD 2 0
    let ptype := hdr.getD 3 0
    let flags := hdr.getD 4 0
    let hlen := hdr.getD 5 0
    let fid := beRead 8 (hdr.drop 6)
    let seq := beRead 4 (hdr.drop 14)
    let ack := beRead 4 (hdr.drop 18)
    let cid := beRead 4 (hdr.drop 22)
    let plen := beRead 2 (hdr.drop 26)
    let ck := beRead 4 (hdr.drop 28)
    if magic = MAGIC ∧ ver = VERSION ∧ hlen = HEADER_LEN then
      let payload := (data.drop HEADER_LEN).take plen
      let header_wo_checksum := packHeader ptype flags fid seq ack cid plen 0
      let calcCk := crc32 (header_wo_checksum ++ payload)
      ({ ptype := ptype, flags := flags, file_id := fid, seq := seq, ack := ack,
         chunk_id := cid, payload := payload }, calcCk == ck)
    else
      ({ ptype := PktType.ERR, flags := 0, file_id := 0, payload := badHeaderMsg }, false)

theorem length_be (w v : Nat) : (be w v).length = w := by
  induction w generalizing v with
  | zero => rfl
  | succ w ih => simp [be, ih]

theorem foldl_be (w : Nat) :
    ∀ v a, (be w v).foldl (fun x b => 256 * x + b) a = a * 256 ^ w + v % 256 ^ w := by
  induction w with
  | zero => intro v a; simp [be, Nat.mod_one]
  | succ w ih =>
    intro v a
    rw [be, List.foldl_append, ih]
    have h : v % (256 * 256 ^ w) = v % 256 + 256 * (v / 256 % 256 ^ w) := Nat.mod_mul
    simp only [List.foldl_cons, List.foldl_nil]
    rw [pow_succ, Nat.mul_comm (256 ^ w) 256, h]
    ring

theorem beRead_be (w v : Nat) (rest : List Nat) :
    beRead w (be w v ++ rest) = v % 256 ^ w := by
  unfold beRead
  rw [List.take_left' (length_be w v), foldl_be]
  simp

theorem drop_be (w v : Nat) (rest : List Nat) : (be w v ++ rest).drop w = rest :=
  List.drop_left' (length_be w v)

theorem crcStep_lt (c : Nat) (h : c < 2 ^ 32) : crcStep c < 2 ^ 32 := by
  unfold crcStep
  split
  · exact Nat.xor_lt_two_pow (by omega) (by norm_num)
  · omega

theorem crcSteps_lt (n c : Nat) (h : c < 2 ^ 32) : crcSteps n c < 2 ^ 32 := by
  induction n generalizing c with
  | zero => exact h
  | succ n ih => exact ih (crcStep c) (crcStep_lt c h)

theorem crcByte_lt (c b : Nat) (h : c < 2 ^ 32) : crcByte c b < 2 ^ 32 := by
  refine crcSteps_lt 8 _ (Nat.xor_lt_two_pow h ?_)
  have : b % 256 < 256 := Nat.mod_lt b (by norm_num)
  omega

theorem foldl_crcByte_lt (data : List Nat) :
    ∀ c, c < 2 ^ 32 → data.foldl crcByte c < 2 ^ 32 := by
  induction data with
  | nil => intro c h; exact h
  | cons b bs ih => intro c h; exact ih _ (crcByte_lt c b h)

theorem crc32_lt (data : List Nat) : crc32 data < 2 ^ 32 :=
  Nat.xor_lt_two_pow (foldl_crcByte_lt data 0xFFFFFFFF (by norm_num)) (by norm_num)

theorem drop_be_add (w n v : Nat) (rest : List Nat) :
    (be w v ++ rest).drop (w + n) = rest.drop n := by
  have h : (be w v ++ rest).drop ((be w v).length + n) = rest.drop n :=
    List.drop_append n
  rwa [length_be] at h

theorem beRead_be_nil (w v : Nat) : beRead w (be w v) = v % 256 ^ w := by
  have h := beRead_be w v []
  simpa using h

theorem packHeader_length (a b c d e f g h : Nat) :
    (packHeader a b c d e f g h).length = 32 := by
  simp [packHeader, MAGIC, VERSION, HEADER_LEN, length_be]

theorem packHeader_as_append (a b c d e f g h : Nat) :
    packHeader a b c d e f g h =
      [0xCA, 0xFE, VERSION, a % 256, b % 256, HEADER_LEN] ++
        (be 8 c ++ (be 4 d ++ (be 4 e ++ (be 4 f ++ (be 2 g ++ be 4 h))))) := by
  simp [packHeader, MAGIC]

theorem drop_lit6 (x0 x1 x2 x3 x4 x5 : Nat) (M : List Nat) (n : Nat) :
    (([x0, x1, x2, x3, x4, x5] : List Nat) ++ M).drop (6 + n) = M.drop n := by
  have h : (([x0, x1, x2, x3, x4, x5] : List Nat) ++ M).drop
      (([x0, x1, x2, x3, x4, x5] : List Nat).length + n) = M.drop n :=
    List.drop_append n
  simpa using h

/-- Claim C1: for every well-formed packet (payload at most 65503 bytes, header
fields within their widths), Packet.decode recovers from Packet.encode every
header field and the payload exactly, and reports ok = true. -/
theorem decode_encode_roundtrip (p : Packet) (hpt : p.ptype < 256)
    (hfl : p.flags < 256) (hfid : p.file_id < 2 ^ 64) (hseq : p.seq < 2 ^ 32)
    (hack : p.ack < 2 ^ 32) (hcid : p.chunk_id < 2 ^ 32)
    (hlen : p.payload.length ≤ 65503) :
    Packet.decode (Packet.encode p) = (p, true) := by
  have hF : p.file_id % 2 ^ 64 = p.file_id := Nat.mod_eq_of_lt hfid
  have hS : p.seq % 2 ^ 32 = p.seq := Nat.mod_eq_of_lt hseq
  have hA : p.ack % 2 ^ 32 = p.ack := Nat.mod_eq_of_lt hack
  have hC : p.chunk_id % 2 ^ 32 = p.chunk_id := Nat.mod_eq_of_lt hcid
  have hL : p.payload.length % 65536 = p.payload.length := Nat.mod_eq_of_lt (by omega)
  have henc : Packet.encode p =
      packHeader p.ptype p.flags p.file_id p.seq p.ack p.chunk_id p.payload.length
        (crc32 (packHeader p.ptype p.flags p.file_id p.seq p.ack p.chunk_id
          p.payload.length 0 ++ p.payload)) ++ p.payload := by
    simp only [Packet.encode, hF, hS, hA, hC, hL]
  rw [henc]
  generalize hK : crc32 (packHeader p.ptype p.flags p.file_id p.seq p.ack p.chunk_id
      p.payload.length 0 ++ p.payload) = K
  have hKlt : K < 2 ^ 32 := hK ▸ crc32_lt _
  have h1 : ¬ (packHeader p.ptype p.flags p.file_id p.seq p.ack p.chunk_id
      p.payload.length K ++ p.payload).length < HEADER_LEN := by
    rw [List.length_append, packHeader_length]
    simp [HEADER_LEN]
  have htake : (packHeader p.ptype p.flags p.file_id p.seq p.ack p.chunk_id
      p.payload.length K ++ p.payload).take HEADER_LEN =
      packHeader p.ptype p.flags p.file_id p.seq p.ack p.chunk_id p.payload.length K :=
    List.take_left' (packHeader_length _ _ _ _ _ _ _ _)
  have hdropP : (packHeader p.ptype p.flags p.file_id p.seq p.ack p.chunk_id
      p.payload.length K ++ p.payload).drop HEADER_LEN = p.payload :=
    List.drop_left' (packHeader_length _ _ _ _ _ _ _ _)
  have e2 : (packHeader p.ptype p.flags p.file_id p.seq p.ack p.chunk_id
      p.payload.length K).take 2 = MAGIC := rfl
  have e3 : (packHeader p.ptype p.flags p.file_id p.seq p.ack p.chunk_id
      p.payload.length K).getD 2 0 = VERSION := rfl
  have e4 : (packHeader p.ptype p.flags p.file_id p.seq p.ack p.chunk_id
      p.payload.length K).getD 3 0 = p.ptype := by
    have h0 : (packHeader p.ptype p.flags p.file_id p.seq p.ack p.chunk_id
        p.payload.length K).getD 3 0 = p.ptype % 256 := rfl
    rw [h0, Nat.mod_eq_of_lt hpt]
  have e5 : (packHeader p.ptype p.flags p.file_id p.seq p.ack p.chunk_id
      p.payload.length K).getD 4 0 = p.flags := by
    have h0 : (packHeader p.ptype p.flags p.file_id p.seq p.ack p.chunk_id
        p.payload.length K).getD 4 0 = p.flags % 256 := rfl
    rw [h0, Nat.mod_eq_of_lt hfl]
  have e6 : (packHeader p.ptype p.flags p.file_id p.seq p.ack p.chunk_id
      p.payload.length K).getD 5 0 = HEADER_LEN := rfl
  have efid : beRead 8 ((packHeader p.ptype p.flags p.file_id p.seq p.ack p.chunk_id
      p.payload.length K).drop 6) = p.file_id := by
    have h0 : (packHeader p.ptype p.flags p.file_id p.seq p.ack p.chunk_id
        p.payload.length K).drop 6 = be 8 p.file_id ++ (be 4 p.seq ++ (be 4 p.ack ++
        (be 4 p.chunk_id ++ (be 2 p.payload.length ++ be 4 K)))) := by
      rw [packHeader_as_append, (by norm_num : (6 : Nat) = 6 + 0), drop_lit6, List.drop_zero]
    rw [h0, beRead_be, (by norm_num : (256 : Nat) ^ 8 = 2 ^ 64), hF]
  have eseq : beRead 4 ((packHeader p.ptype p.flags p.file_id p.seq p.ack p.chunk_id
      p.payload.length K).drop 14) = p.seq := by
    have h0 : (packHeader p.ptype p.flags p.file_id p.seq p.ack p.chunk_id
        p.payload.length K).drop 14 = (be 8 p.file_id ++ (be 4 p.seq ++ (be 4 p.ack ++
        (be 4 p.chunk_id ++ (be 2 p.payload.length ++ be 4 K))))).drop 8 := by
      rw [packHeader_as_append, (by norm_num : (14 : Nat) = 6 + 8), drop_lit6]
    rw [h0, drop_be, beRead_be, (by norm_num : (256 : Nat) ^ 4 = 2 ^ 32), hS]
  have eack : beRead 4 ((packHeader p.ptype p.flags p.file_id p.seq p.ack p.chunk_id
      p.payload.length K).drop 18) = p.ack := by
    have h0 : (packHeader p.ptype p.flags p.file_id p.seq p.ack p.chunk_id
        p.payload.length K).drop 18 = (be 8 p.file_id ++ (be 4 p.seq ++ (be 4 p.ack ++
        (be 4 p.chunk_id ++ (be 2 p.payload.length ++ be 4 K))))).drop 12 := by
      rw [packHeader_as_append, (by norm_num : (18 : Nat) = 6 + 12), drop_lit6]
    have h12 := drop_be_add 8 4 p.file_id (be 4 p.seq ++ (be 4 p.ack ++
        (be 4 p.chunk_id ++ (be 2 p.payload.length ++ be 4 K))))
    norm_num at h12
    have h4 : (be 4 p.seq ++ (be 4 p.ack ++ (be 4 p.chunk_id ++
        (be 2 p.payload.length ++ be 4 K)))).drop 4 = be 4 p.ack ++
        (be 4 p.chunk_id ++ (be 2 p.payload.length ++ be 4 K)) := drop_be 4 p.seq _
    rw [h0, h12, h4, beRead_be, (by norm_num : (256 : Nat) ^ 4 = 2 ^ 32), hA]
  have ecid : beRead 4 ((packHeader p.ptype p.flags p.file_id p.seq p.ack p.chunk_id
      p.payload.length K).drop 22) = p.chunk_id := by
    have h0 : (packHeader p.ptype p.flags p.file_id p.seq p.ack p.chunk_id
        p.payload.length K).drop 22 = (be 8 p.file_id ++ (be 4 p.seq ++ (be 4 p.ack ++
        (be 4 p.chunk_id ++ (be 2 p.payload.length ++ be 4 K))))).drop 16 := by
      rw [packHeader_as_append, (by norm_num : (22 : Nat) = 6 + 16), drop_lit6]
    have h16 := drop_be_add 8 8 p.file_id (be 4 p.seq ++ (be 4 p.ack ++
        (be 4 p.chunk_id ++ (be 2 p.payload.length ++ be 4 K))))
    norm_num at h16
    have h8 := drop_be_add 4 4 p.seq (be 4 p.ack ++
        (be 4 p.chunk_id ++ (be 2 p.payload.length ++ be 4 K)))
    norm_num at h8
    have h4 : (be 4 p.ack ++ (be 4 p.chunk_id ++ (be 2 p.payload.length ++
        be 4 K))).drop 4 = be 4 p.chunk_id ++ (be 2 p.payload.length ++ be 4 K) :=
      drop_be 4 p.ack _
    rw [h0, h16, h8, h4, beRead_be, (by norm_num : (256 : Nat) ^ 4 = 2 ^ 32), hC]
  have eplen : beRead 2 ((packHeader p.ptype p.flags p.file_id p.seq p.ack p.chunk_id
      p.payload.length K).drop 26) = p.payload.length := by
    have h0 : (packHeader p.ptype p.flags p.file_id p.seq p.ack p.chunk_id
        p.payload.length K).drop 26 = (be 8 p.file_id ++ (be 4 p.seq ++ (be 4 p.ack ++
        (be 4 p.chunk_id ++ (be 2 p.payload.length ++ be 4 K))))).drop 20 := by
      rw [packHeader_as_append, (by norm_num : (26 : Nat) = 6 + 20), drop_lit6]
    have h20 := drop_be_add 8 12 p.file_id (be 4 p.seq ++ (be 4 p.ack ++
        (be 4 p.chunk_id ++ (be 2 p.payload.length ++ be 4 K))))
    norm_num at h20
    have h12 := drop_be_add 4 8 p.seq (be 4 p.ack ++
        (be 4 p.chunk_id ++ (be 2 p.payload.length ++ be 4 K)))
    norm_num at h12
    have h8 := drop_be_add 4 4 p.ack (be 4 p.chunk_id ++
        (be 2 p.payload.length ++ be 4 K))
    norm_num at h8
    have h4 : (be 4 p.chunk_id ++ (be 2 p.payload.length ++ be 4 K)).drop 4 =
        be 2 p.payload.length ++ be 4 K := drop_be 4 p.chunk_id _
    rw [h0, h20, h12, h8, h4, beRead_be, (by norm_num : (256 : Nat) ^ 2 = 65536), hL]
  have eck : beRead 4 ((packHeader p.ptype p.flags p.file_id p.seq p.ack p.chunk_id
      p.payload.length K).drop 28) = K := by
    have h0 : (packHeader p.ptype p.flags p.file_id p.seq p.ack p.chunk_id
        p.payload.length K).drop 28 = (be 8 p.file_id ++ (be 4 p.seq ++ (be 4 p.ack ++
        (be 4 p.chunk_id ++ (be 2 p.payload.length ++ be 4 K))))).drop 22 := by
      rw [packHeader_as_append, (by norm_num : (28 : Nat) = 6 + 22), drop_lit6]
    have h22 := drop_be_add 8 14 p.file_id (be 4 p.seq ++ (be 4 p.ack ++
        (be 4 p.chunk_id ++ (be 2 p.payload.length ++ be 4 K))))
    norm_num at h22
    have h14 := drop_be_add 4 10 p.seq (be 4 p.ack ++
        (be 4 p.chunk_id ++ (be 2 p.payload.length ++ be 4 K)))
    norm_num at h14
    have h10 := drop_be_add 4 6 p.ack (be 4 p.chunk_id ++
        (be 2 p.payload.length ++ be 4 K))
    norm_num at h10
    have h6 := drop_be_add 4 2 p.chunk_id (be 2 p.payload.length ++ be 4 K)
    norm_num at h6
    have h2 : (be 2 p.payload.length ++ be 4 K).drop 2 = be 4 K :=
      drop_be 2 p.payload.length _
    rw [h0, h22, h14, h10, h6, h2, beRead_be_nil,
      (by norm_num : (256 : Nat) ^ 4 = 2 ^ 32), Nat.mod_eq_of_lt hKlt]
  simp only [Packet.decode]
  rw [if_neg h1, htake, hdropP, e2, e3, e4, e5, e6, efid, eseq, eack, ecid, eplen, eck,
    if_pos ⟨rfl, rfl, rfl⟩, List.take_length, hK]
  simp

/-- Witness for claim C1 at a concrete DATA packet with a two-byte payload. -/
theorem decode_encode_roundtrip_witness :
    Packet.decode (Packet.encode ⟨3, 2, 5, 1, 0, 1, [104, 105]⟩) =
      ((⟨3, 2, 5, 1, 0, 1, [104, 105]⟩ : Packet), true) :=
  decode_encode_roundtrip _ (by decide) (by decide) (by norm_num) (by norm_num)
    (by norm_num) (by norm_num) (by decide)

/-- Claim C9: Packet.decode is a total function; a buffer shorter than 32
bytes, or one whose magic, version, or header-length byte is wrong, yields
ok = false with the fixed ERR packet and no extracted header fields; and when
the decoded payload_len exceeds the bytes remaining after the header, the
payload is truncated to the buffer remainder and the datagram is accepted
exactly when the checksum field equals the CRC32 recomputed over the
zero-checksum header and that truncated payload. -/
theorem decode_total_short_bad_truncated :
    (∀ data : List Nat, data.length < 32 →
      Packet.decode data =
        ({ ptype := PktType.ERR, flags := 0, file_id := 0,
           payload := shortPacketMsg }, false)) ∧
    (∀ data : List Nat, 32 ≤ data.length →
      ¬ ((data.take HEADER_LEN).take 2 = MAGIC ∧
         (data.take HEADER_LEN).getD 2 0 = VERSION ∧
         (data.take HEADER_LEN).getD 5 0 = HEADER_LEN) →
      Packet.decode data =
        ({ ptype := PktType.ERR, flags := 0, file_id := 0,
           payload := badHeaderMsg }, false)) ∧
    (∀ data : List Nat, 32 ≤ data.length →
      ((data.take HEADER_LEN).take 2 = MAGIC ∧
       (data.take HEADER_LEN).getD 2 0 = VERSION ∧
       (data.take HEADER_LEN).getD 5 0 = HEADER_LEN) →
      data.length - 32 < beRead 2 ((data.take HEADER_LEN).drop 26) →
      (Packet.decode data).1.payload = data.drop HEADER_LEN ∧
      ((Packet.decode data).2 = true ↔
        crc32 (packHeader ((data.take HEADER_LEN).getD 3 0)
            ((data.take HEADER_LEN).getD 4 0)
            (beRead 8 ((data.take HEADER_LEN).drop 6))
            (beRead 4 ((data.take HEADER_LEN).drop 14))
            (beRead 4 ((data.take HEADER_LEN).drop 18))
            (beRead 4 ((data.take HEADER_LEN).drop 22))
            (beRead 2 ((data.take HEADER_LEN).drop 26)) 0 ++ data.drop HEADER_LEN) =
          beRead 4 ((data.take HEADER_LEN).drop 28))) := by
  refine ⟨?_, ?_, ?_⟩
  · intro data h
    simp only [Packet.decode]
    rw [if_pos (by simpa [HEADER_LEN] using h)]
  · intro data h32 hbad
    simp only [Packet.decode]
    rw [if_neg (by simp [HEADER_LEN]; omega), if_neg hbad]
  · intro data h32 hgood htrunc
    have hfull : (data.drop HEADER_LEN).take
        (beRead 2 ((data.take HEADER_LEN).drop 26)) = data.drop HEADER_LEN := by
      refine List.take_of_length_le ?_
      rw [List.length_drop]
      show data.length - 32 ≤ beRead 2 ((data.take HEADER_LEN).drop 26)
      omega
    simp only [Packet.decode]
    rw [if_neg (by simp [HEADER_LEN]; omega), if_pos hgood, hfull]
    exact ⟨rfl, by rw [beq_iff_eq]⟩

/-- Witness for claim C9: the empty buffer, an all-zero 32-byte buffer, and a
well-framed 32-byte header announcing five payload bytes that are absent. -/
theorem decode_total_short_bad_truncated_witness :
    Packet.decode [] =
      ({ ptype := PktType.ERR, flags := 0, file_id := 0,
         payload := shortPacketMsg }, false) ∧
    Packet.decode (List.replicate 32 0) =
      ({ ptype := PktType.ERR, flags := 0, file_id := 0,
         payload := badHeaderMsg }, false) ∧
    (Packet.decode [0xCA, 0xFE, 1, 3, 0, 32, 0, 0, 0, 0, 0, 0, 0, 0, 0, 0, 0, 0,
        0, 0, 0, 0, 0, 0, 0, 0, 0, 5, 0, 0, 0, 0]).1.payload = [] := by
  refine ⟨decode_total_short_bad_truncated.1 [] (by decide),
    decode_total_short_bad_truncated.2.1 (List.replicate 32 0) (by decide) (by decide),
    ((decode_total_short_bad_truncated.2.2
      [0xCA, 0xFE, 1, 3, 0, 32, 0, 0, 0, 0, 0, 0, 0, 0, 0, 0, 0, 0,
        0, 0, 0, 0, 0, 0, 0, 0, 0, 5, 0, 0, 0, 0]
      (by decide) (by decide) (by decide)).1.trans (by decide))⟩

/-- The per-session dictionary the receiver persists (receiver.py). The
filename key only selects on-disk paths and the updated_at wall-clock stamp is
ignored by every decision; neither is modelled. -/
structure SessionMeta where
  file_id : Nat
  filesize : Nat
  chunk_size : Nat
  sha256 : String
  next_chunk : Nat
  deriving Repr, DecidableEq

/-- The metadata fields of an incoming SYN payload used by
_load_or_init_session (file_id from the packet header, the rest from JSON). -/
structure IncomingMeta where
  file_id : Nat
  filesize : Nat
  chunk_size : Nat
  sha256 : String
  deriving Repr, DecidableEq

/-- Negation of the reset condition of _load_or_init_session: the persisted
dictionary agrees with the incoming metadata on file_id, sha256, chunk_size
and filesize. -/
def metaMatches (s : SessionMeta) (m : IncomingMeta) : Prop :=
  s.file_id = m.file_id ∧ s.sha256 = m.sha256 ∧
    s.chunk_size = m.chunk_size ∧ s.filesize = m.filesize

instance (s : SessionMeta) (m : IncomingMeta) : Decidable (metaMatches s m) := by
  unfold metaMatches
  infer_instance

/-- What _load_or_init_session does with an existing .part file. -/
inductive PartDisposition
  | keep
  | renamedAside
  deriving Repr, DecidableEq

/-- _load_or_init_session: persisted is the parsed meta file (none when absent
or unreadable, load_json's default), partSize the size of an existing .part
file (none when absent). On full metadata match the persisted session is
adopted and next_chunk is reconciled from the .part size; otherwise a fresh
session starts at 0 and any existing .part is renamed aside with a timestamp
suffix. -/
def loadOrInitSession (persisted : Option SessionMeta) (partSize : Option Nat)
    (m : IncomingMeta) : SessionMeta × PartDisposition :=
  match persisted with
  | some s =>
    if metaMatches s m then
      match partSize with
      | some sz => ({ s with next_chunk := sz / m.chunk_size }, .keep)
      | none => (s, .keep)
    else
      ({ file_id := m.file_id, filesize := m.filesize, chunk_size := m.chunk_size,
         sha256 := m.sha256, next_chunk := 0 },
        if partSize.isSome then .renamedAside else .keep)
  | none =>
      ({ file_id := m.file_id, filesize := m.filesize, chunk_size := m.chunk_size,
         sha256 := m.sha256, next_chunk := 0 },
        if partSize.isSome then .renamedAside else .keep)

/-- Result of the receiver's _handle_data on a known session: the updated
session and .part contents, the ACK sent, and whether the EOF flag made the
receiver attempt finalization (finalization itself is finalizeIfComplete). -/
structure DataResult where
  sess : SessionMeta
  part : List Nat
  ack : Packet
  finalizeAttempted : Bool
  deriving Repr, DecidableEq

/-- _handle_data for a session the receiver knows: stop-and-wait. A packet
whose chunk_id or seq differs from next_chunk is not written and the last
in-order chunk is re-acknowledged (ack 0 when nothing was delivered yet);
otherwise the payload is appended, next_chunk advances by one, the chunk is
acknowledged, and an EOF flag triggers a finalization attempt. -/
def handle_data (sess : SessionMeta) (part : List Nat) (pkt : Packet) : DataResult :=
  let expected := sess.next_chunk
  if pkt.chunk_id ≠ expected ∨ pkt.seq ≠ expected then
    let ack_id := if 0 < expected then expected - 1 else 0
    { sess := sess, part := part,
      ack := { ptype := PktType.ACK, flags := 0, file_id := pkt.file_id,
               seq := 0, ack := ack_id, chunk_id := ack_id, payload := [] },
      finalizeAttempted := false }
  else
    { sess := { sess with next_chunk := expected + 1 },
      part := part ++ pkt.payload,
      ack := { ptype := PktType.ACK, flags := 0, file_id := pkt.file_id,
               seq := 0, ack := expected, chunk_id := expected, payload := [] },
      finalizeAttempted := Nat.land pkt.flags FLAG_EOF != 0 }

/-- Receiver-side files of one session around finalization: contents of the
.part file and of the file under the final name (none = absent), whether the
meta file exists, and the pile of files renamed aside with timestamp
suffixes. -/
structure FsState where
  part : Option (List Nat)
  metaPresent : Bool
  finalFile : Option (List Nat)
  backups : List (List Nat)
  deriving Repr, DecidableEq

/-- _finalize_if_complete. The SHA-256 digest computation (sha256_file) enters
as the function hash applied to the .part contents; the code only compares
digests for equality. Python's truthiness test on the declared digest is the
explicit nonemptiness conjunct. -/
def finalizeIfComplete (hash : List Nat → String) (s : SessionMeta)
    (fs : FsState) : FsState :=
  match fs.part with
  | none => fs
  | some content =>
    if content.length < s.filesize then fs
    else if s.sha256 ≠ "" ∧ hash content ≠ s.sha256 then fs
    else
      { part := none, metaPresent := false, finalFile := some content,
        backups := match fs.finalFile with
          | some old => old :: fs.backups
          | none => fs.backups }

/-- Chunk i of a file as the sender reads it: chunk_size bytes starting at
offset i * chunk_size; the final chunk may be shorter. -/
def fileChunk (file : List Nat) (cs i : Nat) : List Nat :=
  (file.drop (i * cs)).take cs

/-- A DATA packet exactly as send_file builds it for some chunk of the
intended file: type DATA, seq equal to chunk_id, payload the chunk bytes. -/
def GenuineData (file : List Nat) (cs : Nat) (pkt : Packet) : Prop :=
  pkt.ptype = PktType.DATA ∧ pkt.seq = pkt.chunk_id ∧
    pkt.payload = fileChunk file cs pkt.chunk_id

instance (file : List Nat) (cs : Nat) (pkt : Packet) :
    Decidable (GenuineData file cs pkt) := by
  unfold GenuineData
  infer_instance

/-- The receiver's mutable state for one session: session dictionary plus the
.part contents. -/
structure RecvState where
  sess : SessionMeta
  part : List Nat
  deriving Repr, DecidableEq

/-- The state part of _handle_data. -/
def applyData (st : RecvState) (pkt : Packet) : RecvState :=
  { sess := (handle_data st.sess st.part pkt).sess,
    part := (handle_data st.sess st.part pkt).part }

/-- Process a sequence of DATA packets in arrival order. -/
def runData (st : RecvState) (pkts : List Packet) : RecvState :=
  pkts.foldl applyData st

theorem applyData_inv (file : List Nat) (cs : Nat) (st : RecvState) (pkt : Packet)
    (hinv : st.part = file.take (st.sess.next_chunk * cs))
    (hg : GenuineData file cs pkt) :
    (applyData st pkt).part = file.take ((applyData st pkt).sess.next_chunk * cs) := by
  simp only [applyData, handle_data]
  by_cases h : pkt.chunk_id ≠ st.sess.next_chunk ∨ pkt.seq ≠ st.sess.next_chunk
  · rw [if_pos h]
    exact hinv
  · rw [if_neg h]
    push_neg at h
    show st.part ++ pkt.payload = file.take ((st.sess.next_chunk + 1) * cs)
    rw [hinv, hg.2.2, fileChunk, h.1, Nat.succ_mul, List.take_add]

theorem runData_inv (file : List Nat) (cs : Nat) (pkts : List Packet) :
    ∀ st : RecvState, st.part = file.take (st.sess.next_chunk * cs) →
    (∀ p ∈ pkts, GenuineData file cs p) →
    (runData st pkts).part = file.take ((runData st pkts).sess.next_chunk * cs) := by
  induction pkts with
  | nil => intro st hinv _; exact hinv
  | cons p ps ih =>
    intro st hinv hg
    have h1 := applyData_inv file cs st p hinv (hg p (by simp))
    have h2 := ih (applyData st p) h1 (fun q hq => hg q (by simp [hq]))
    simpa [runData] using h2

/-- Claim C2: the receiver appends a DATA payload only when the packet's
chunk_id and seq both equal next_chunk, and then advances next_chunk by one;
consequently, starting from any state whose .part holds the first next_chunk
chunks of the intended file (in particular the fresh state with empty .part
and next_chunk zero) and feeding any sequence of DATA packets the sender
could have built from that file, the .part contents remain the first
next_chunk chunks, a byte-exact prefix of the intended file. -/
theorem receiver_prefix_invariant (file : List Nat) (cs : Nat) (st0 : RecvState)
    (pkts : List Packet)
    (hinv : st0.part = file.take (st0.sess.next_chunk * cs))
    (hg : ∀ p ∈ pkts, GenuineData file cs p) :
    (runData st0 pkts).part = file.take ((runData st0 pkts).sess.next_chunk * cs) ∧
    (∃ t, (runData st0 pkts).part ++ t = file) ∧
    (∀ st : RecvState, ∀ p : Packet,
      (p.chunk_id ≠ st.sess.next_chunk ∨ p.seq ≠ st.sess.next_chunk →
        (handle_data st.sess st.part p).part = st.part) ∧
      (p.chunk_id = st.sess.next_chunk ∧ p.seq = st.sess.next_chunk →
        (handle_data st.sess st.part p).part = st.part ++ p.payload ∧
        (handle_data st.sess st.part p).sess.next_chunk = st.sess.next_chunk + 1)) := by
  have hrun := runData_inv file cs pkts st0 hinv hg
  refine ⟨hrun, ?_, ?_⟩
  · exact ⟨file.drop ((runData st0 pkts).sess.next_chunk * cs),
      hrun ▸ List.take_append_drop _ file⟩
  · intro st p
    constructor
    · intro h
      simp only [handle_data]
      rw [if_pos h]
    · intro h
      simp only [handle_data]
      rw [if_neg (by simp [h.1, h.2])]
      exact ⟨rfl, rfl⟩

/-- Witness for claim C2: a three-byte file in chunks of two, delivered by its
two genuine DATA packets from the fresh state. -/
theorem receiver_prefix_invariant_witness :
    (runData ⟨⟨1, 3, 2, "h", 0⟩, []⟩
        [⟨3, 0, 1, 0, 0, 0, [10, 20]⟩, ⟨3, 2, 1, 1, 0, 1, [30]⟩]).part =
      [10, 20, 30].take ((runData ⟨⟨1, 3, 2, "h", 0⟩, []⟩
        [⟨3, 0, 1, 0, 0, 0, [10, 20]⟩, ⟨3, 2, 1, 1, 0, 1, [30]⟩]).sess.next_chunk * 2) ∧
    (∃ t, (runData ⟨⟨1, 3, 2, "h", 0⟩, []⟩
        [⟨3, 0, 1, 0, 0, 0, [10, 20]⟩, ⟨3, 2, 1, 1, 0, 1, [30]⟩]).part ++ t =
      [10, 20, 30]) :=
  ⟨(receiver_prefix_invariant [10, 20, 30] 2 ⟨⟨1, 3, 2, "h", 0⟩, []⟩
      [⟨3, 0, 1, 0, 0, 0, [10, 20]⟩, ⟨3, 2, 1, 1, 0, 1, [30]⟩]
      (by decide) (by decide)).1,
   (receiver_prefix_invariant [10, 20, 30] 2 ⟨⟨1, 3, 2, "h", 0⟩, []⟩
      [⟨3, 0, 1, 0, 0, 0, [10, 20]⟩, ⟨3, 2, 1, 1, 0, 1, [30]⟩]
      (by decide) (by decide)).2.1⟩

/-- Claim C3: a DATA packet for a known session whose chunk_id or seq differs
from next_chunk writes nothing to .part, leaves the session unchanged,
attempts no finalization, and is answered by an ACK whose ack field equals
max(0, next_chunk - 1); re-injecting any previously delivered DATA packet
(chunk_id below next_chunk) therefore causes no state change beyond the
emitted ACK. -/
theorem duplicate_data_no_write (sess : SessionMeta) (part : List Nat)
    (pkt : Packet)
    (h : pkt.chunk_id ≠ sess.next_chunk ∨ pkt.seq ≠ sess.next_chunk) :
    (handle_data sess part pkt).sess = sess ∧
    (handle_data sess part pkt).part = part ∧
    (handle_data sess part pkt).finalizeAttempted = false ∧
    (handle_data sess part pkt).ack.ptype = PktType.ACK ∧
    ((handle_data sess part pkt).ack.ack : Int) =
      max 0 ((sess.next_chunk : Int) - 1) ∧
    (∀ d : Packet, d.chunk_id < sess.next_chunk →
      (handle_data sess part d).sess = sess ∧
      (handle_data sess part d).part = part ∧
      (handle_data sess part d).finalizeAttempted = false ∧
      (handle_data sess part d).ack.ptype = PktType.ACK) := by
  have hstep : ∀ q : Packet,
      q.chunk_id ≠ sess.next_chunk ∨ q.seq ≠ sess.next_chunk →
      (handle_data sess part q).sess = sess ∧
      (handle_data sess part q).part = part ∧
      (handle_data sess part q).finalizeAttempted = false ∧
      (handle_data sess part q).ack.ptype = PktType.ACK := by
    intro q hq
    simp only [handle_data]
    rw [if_pos hq]
    exact ⟨rfl, rfl, rfl, rfl⟩
  have hackval : ((handle_data sess part pkt).ack.ack : Int) =
      max 0 ((sess.next_chunk : Int) - 1) := by
    simp only [handle_data]
    rw [if_pos h]
    show ((if 0 < sess.next_chunk then sess.next_chunk - 1 else 0 : Nat) : Int) = _
    rcases Nat.eq_zero_or_pos sess.next_chunk with h0 | h0
    · rw [h0]
      decide
    · rw [if_pos h0, Nat.cast_sub (by omega), Nat.cast_one]
      have h1 : (1 : Int) ≤ (sess.next_chunk : Int) := by exact_mod_cast h0
      rw [max_eq_right (by omega)]
  refine ⟨(hstep pkt h).1, (hstep pkt h).2.1, (hstep pkt h).2.2.1,
    (hstep pkt h).2.2.2, hackval, ?_⟩
  intro d hd
  exact hstep d (Or.inl (Nat.ne_of_lt hd))

/-- Witness for claim C3: a duplicate of the already delivered chunk 4
arriving while next_chunk is 5 is re-acknowledged with ack 4 and changes
nothing. -/
theorem duplicate_data_no_write_witness :
    (handle_data ⟨1, 100, 10, "x", 5⟩ [1, 2, 3] ⟨3, 0, 1, 4, 0, 4, [9]⟩).sess =
      ⟨1, 100, 10, "x", 5⟩ ∧
    (handle_data ⟨1, 100, 10, "x", 5⟩ [1, 2, 3] ⟨3, 0, 1, 4, 0, 4, [9]⟩).part =
      [1, 2, 3] ∧
    ((handle_data ⟨1, 100, 10, "x", 5⟩ [1, 2, 3] ⟨3, 0, 1, 4, 0, 4, [9]⟩).ack.ack : Int) =
      max 0 (((5 : Nat) : Int) - 1) := by
  have h := duplicate_data_no_write ⟨1, 100, 10, "x", 5⟩ [1, 2, 3]
    ⟨3, 0, 1, 4, 0, 4, [9]⟩ (by decide)
  exact ⟨h.1, h.2.1, h.2.2.2.2.1⟩

/-- Claim C6: on a SYN whose metadata fully matches the persisted meta file
the receiver adopts the persisted next_chunk, reconciled to
floor(partial_size / chunk_size) when a .part exists; on any mismatch or
absent prior state it starts at next_chunk 0 and renames an existing .part
aside. -/
theorem load_or_init_spec (persisted : Option SessionMeta) (partSize : Option Nat)
    (m : IncomingMeta) :
    (∀ s, persisted = some s → metaMatches s m →
      (partSize = none →
        loadOrInitSession persisted partSize m = (s, PartDisposition.keep)) ∧
      (∀ sz, partSize = some sz →
        loadOrInitSession persisted partSize m =
          ({ s with next_chunk := sz / m.chunk_size }, PartDisposition.keep))) ∧
    ((∀ s, persisted = some s → ¬ metaMatches s m) →
      (loadOrInitSession persisted partSize m).1.next_chunk = 0 ∧
      (loadOrInitSession persisted partSize m).2 =
        (if partSize.isSome then PartDisposition.renamedAside
         else PartDisposition.keep)) := by
  constructor
  · intro s hs hm
    subst hs
    constructor
    · intro hps
      subst hps
      simp [loadOrInitSession, hm]
    · intro sz hps
      subst hps
      simp [loadOrInitSession, hm]
  · intro hmis
    cases persisted with
    | none => simp [loadOrInitSession]
    | some s =>
      have hns := hmis s rfl
      simp [loadOrInitSession, hns]

/-- Witness for claim C6: a fully matching persisted session with a 2048-byte
.part reconciles next_chunk to 2; with no persisted meta the session starts at
0 and the stray .part is renamed aside. -/
theorem load_or_init_spec_witness :
    loadOrInitSession (some ⟨9, 5000, 1024, "abc", 3⟩) (some 2048)
        ⟨9, 5000, 1024, "abc"⟩ =
      (⟨9, 5000, 1024, "abc", 2⟩, PartDisposition.keep) ∧
    (loadOrInitSession none (some 7) ⟨9, 5000, 1024, "abc"⟩).1.next_chunk = 0 ∧
    (loadOrInitSession none (some 7) ⟨9, 5000, 1024, "abc"⟩).2 =
      PartDisposition.renamedAside := by
  refine ⟨?_, ?_, ?_⟩
  · exact (((load_or_init_spec (some ⟨9, 5000, 1024, "abc", 3⟩) (some 2048)
      ⟨9, 5000, 1024, "abc"⟩).1 ⟨9, 5000, 1024, "abc", 3⟩ rfl
      (by decide)).2 2048 rfl).trans (by decide)
  · exact ((load_or_init_spec none (some 7) ⟨9, 5000, 1024, "abc"⟩).2
      (fun s hs => Option.noConfusion hs)).1
  · exact (((load_or_init_spec none (some 7) ⟨9, 5000, 1024, "abc"⟩).2
      (fun s hs => Option.noConfusion hs)).2).trans (by decide)

/-- Counterexample to claim C7 as stated: when the session's declared sha256
is the empty string (a SYN metadata may omit the field, _handle_syn defaults
it to an empty string), the computed digest of .part differs from the declared
one, yet finalization still renames .part to the final name and deletes the
meta file, because the code skips verification for a falsy declared digest. -/
theorem finalize_mismatch_cex :
    (fun _ : List Nat => "d0") [] ≠ (⟨7, 0, 1024, "", 0⟩ : SessionMeta).sha256 ∧
    finalizeIfComplete (fun _ : List Nat => "d0") ⟨7, 0, 1024, "", 0⟩
        ⟨some [], true, none, []⟩ =
      ⟨none, false, some [], []⟩ :=
  ⟨by decide, by decide⟩

/-- Claim C7 amended: finalization proceeds only when .part exists with size
at least filesize; when the declared sha256 is nonempty and the computed
digest differs, .part and the meta file are retained and no rename occurs;
when the computed digest equals the declared sha256 — or the declared sha256
is empty, in which case verification is skipped — an existing final file is
renamed aside, .part becomes the final file, and the meta file is deleted. -/
theorem finalize_spec (hash : List Nat → String) (s : SessionMeta) (fs : FsState) :
    (fs.part = none → finalizeIfComplete hash s fs = fs) ∧
    (∀ c, fs.part = some c → c.length < s.filesize →
      finalizeIfComplete hash s fs = fs) ∧
    (∀ c, fs.part = some c → s.filesize ≤ c.length → s.sha256 ≠ "" →
      hash c ≠ s.sha256 → finalizeIfComplete hash s fs = fs) ∧
    (∀ c, fs.part = some c → s.filesize ≤ c.length →
      (hash c = s.sha256 ∨ s.sha256 = "") →
      finalizeIfComplete hash s fs =
        { part := none, metaPresent := false, finalFile := some c,
          backups := match fs.finalFile with
            | some old => old :: fs.backups
            | none => fs.backups }) := by
  refine ⟨?_, ?_, ?_, ?_⟩
  · intro hnone
    simp [finalizeIfComplete, hnone]
  · intro c hc hlt
    simp [finalizeIfComplete, hc, hlt]
  · intro c hc hle hne hdiff
    simp only [finalizeIfComplete, hc]
    rw [if_neg (Nat.not_lt.mpr hle), if_pos ⟨hne, hdiff⟩]
  · intro c hc hle hd
    simp only [finalizeIfComplete, hc]
    rw [if_neg (Nat.not_lt.mpr hle),
      if_neg (by rcases hd with h | h <;> simp [h])]

/-- Witness for claim C7: a nonempty declared digest that disagrees leaves the
state untouched; an agreeing digest finalizes, backing up the existing final
file. -/
theorem finalize_spec_witness :
    finalizeIfComplete (fun _ : List Nat => "zz") ⟨1, 2, 4, "aa", 0⟩
        ⟨some [5, 6], true, none, []⟩ = ⟨some [5, 6], true, none, []⟩ ∧
    finalizeIfComplete (fun _ : List Nat => "aa") ⟨1, 2, 4, "aa", 0⟩
        ⟨some [5, 6], true, some [9], []⟩ = ⟨none, false, some [5, 6], [[9]]⟩ := by
  constructor
  · exact (finalize_spec (fun _ : List Nat => "zz") ⟨1, 2, 4, "aa", 0⟩
      ⟨some [5, 6], true, none, []⟩).2.2.1 [5, 6] rfl (by decide) (by decide)
      (by decide)
  · exact ((finalize_spec (fun _ : List Nat => "aa") ⟨1, 2, 4, "aa", 0⟩
      ⟨some [5, 6], true, some [9], []⟩).2.2.2 [5, 6] rfl (by decide)
      (Or.inl (by decide))).trans (by decide)

/-- SenderConfig from sender.py; the float-valued timing parameters are
modelled as rationals. -/
structure SenderConfig where
  chunk_size : Nat := 1024
  rto_init : Rat := 3 / 10
  rto_min : Rat := 1 / 10
  rto_max : Rat := 2
  max_retries : Nat := 50
  deriving Repr, DecidableEq

/-- State threaded through the _send_and_wait loop: retries and last_ack are
the loop locals, srtt and rto live on the sender object (rto doubles as the
socket timeout), sends counts transmissions of the pending datagram, and
timerStart is the t0 recorded immediately before the most recent
transmission. -/
structure WaitState where
  retries : Nat
  lastAck : Option Nat
  srtt : Option Rat
  rto : Rat
  sends : Nat
  timerStart : Rat
  deriving Repr, DecidableEq

/-- What the blocking recvfrom yields in one loop iteration: a socket timeout,
or a datagram received at a wall-clock time. -/
inductive SockEvent
  | timeout
  | recv (data : List Nat) (recvTime : Rat)
  deriving Repr, DecidableEq

/-- Outcome of one loop iteration of _send_and_wait. -/
inductive WaitOutcome
  | again
  | done (rpkt : Packet)
  | failed
  deriving Repr, DecidableEq

/-- The EWMA of _update_rto: the first sample is adopted; later samples are
smoothed as 0.875 * srtt + 0.125 * rtt. -/
def smoothSrtt (srtt : Option Rat) (rtt : Rat) : Rat :=
  match srtt with
  | none => rtt
  | some s => (7 / 8) * s + (1 / 8) * rtt

/-- _update_rto: smooth srtt, then rto := clamp(2 * srtt, rto_min, rto_max),
applied as the next socket timeout. -/
def updateRto (cfg : SenderConfig) (st : WaitState) (rtt : Rat) : WaitState :=
  { st with srtt := some (smoothSrtt st.srtt rtt),
            rto := max cfg.rto_min (min cfg.rto_max (2 * smoothSrtt st.srtt rtt)) }

/-- One pass of the while-loop of _send_and_wait for an already-encoded
pending packet. Every pass begins by recording t0 := now and sending the
datagram. A timeout then increments retries (failing past max_retries); a
received datagram first updates srtt/rto from the RTT measured against this
pass's send, then is decoded: a corrupt datagram, an unexpected type (which
records last_ack when it is an ACK during a data exchange), or a wrong ack
value each loop again; the expected response is returned. -/
def sendAndWaitIter (cfg : SenderConfig) (expectType : Nat)
    (expectAck : Option Nat) (st : WaitState) (now : Rat) (ev : SockEvent) :
    WaitState × WaitOutcome :=
  let st1 := { st with sends := st.sends + 1, timerStart := now }
  match ev with
  | .timeout =>
    let st2 := { st1 with retries := st1.retries + 1 }
    if st2.retries > cfg.max_retries then (st2, .failed) else (st2, .again)
  | .recv data recvTime =>
    let rtt := recvTime - st1.timerStart
    let st2 := updateRto cfg st1 rtt
    let rpkt := (Packet.decode data).1
    let ok := (Packet.decode data).2
    if ok = false then (st2, .again)
    else if rpkt.ptype ≠ expectType then
      if rpkt.ptype = PktType.ACK ∧ expectAck.isSome then
        ({ st2 with lastAck := some rpkt.ack }, .again)
      else (st2, .again)
    else
      match expectAck with
      | some ea => if rpkt.ack ≠ ea then (st2, .again) else (st2, .done rpkt)
      | none => (st2, .done rpkt)

theorem iter_sends_timer (cfg : SenderConfig) (et : Nat) (ea : Option Nat)
    (st : WaitState) (now : Rat) (ev : SockEvent) :
    (sendAndWaitIter cfg et ea st now ev).1.sends = st.sends + 1 ∧
    (sendAndWaitIter cfg et ea st now ev).1.timerStart = now := by
  cases ev <;> simp only [sendAndWaitIter, updateRto] <;> (repeat' split) <;>
    exact ⟨rfl, rfl⟩

theorem iter_recv_retries (cfg : SenderConfig) (et : Nat) (ea : Option Nat)
    (st : WaitState) (now : Rat) (data : List Nat) (rt : Rat) :
    (sendAndWaitIter cfg et ea st now (.recv data rt)).1.retries = st.retries := by
  simp only [sendAndWaitIter, updateRto]
  (repeat' split) <;> rfl

/-- Claim C10: on every received datagram — one that fails the checksum, one
of unexpected type, one with a wrong ack, or the expected response alike —
srtt and rto are updated from the RTT measured against this pass's
(re)transmission, before any decode or validity check can reject the
datagram: the resulting timing state is identical in all four cases. -/
theorem rtt_updated_on_every_recv (cfg : SenderConfig) (expectType : Nat)
    (expectAck : Option Nat) (st : WaitState) (now : Rat) (data : List Nat)
    (recvTime : Rat) :
    (sendAndWaitIter cfg expectType expectAck st now (.recv data recvTime)).1.srtt =
      some (smoothSrtt st.srtt (recvTime - now)) ∧
    (sendAndWaitIter cfg expectType expectAck st now (.recv data recvTime)).1.rto =
      max cfg.rto_min (min cfg.rto_max (2 * smoothSrtt st.srtt (recvTime - now))) := by
  simp only [sendAndWaitIter, updateRto]
  (repeat' split) <;> exact ⟨rfl, rfl⟩

set_option maxRecDepth 16000 in
/-- Counterexample to claim C4 as stated: an ACK that decodes cleanly but
carries the wrong ack value (3 instead of the expected 5) makes the loop
continue, and the very next pass retransmits the pending packet (sends rises
from 1 to 2) and resets the timer start to the new send time, because
_send_and_wait re-sends at the top of every loop pass; only the retry counter
stays put. -/
theorem rejected_ack_retransmits_cex :
    (Packet.decode (Packet.encode ⟨4, 0, 1, 0, 3, 0, []⟩)).2 = true ∧
    (Packet.decode (Packet.encode ⟨4, 0, 1, 0, 3, 0, []⟩)).1.ptype = 4 ∧
    (Packet.decode (Packet.encode ⟨4, 0, 1, 0, 3, 0, []⟩)).1.ack = 3 ∧
    (sendAndWaitIter {} 4 (some 5) ⟨0, none, none, 3 / 10, 0, 0⟩ 1
      (.recv (Packet.encode ⟨4, 0, 1, 0, 3, 0, []⟩) (11 / 10))).2 =
      WaitOutcome.again ∧
    (sendAndWaitIter {} 4 (some 5) ⟨0, none, none, 3 / 10, 0, 0⟩ 1
      (.recv (Packet.encode ⟨4, 0, 1, 0, 3, 0, []⟩) (11 / 10))).1.sends = 1 ∧
    (sendAndWaitIter {} 4 (some 5) ⟨0, none, none, 3 / 10, 0, 0⟩ 1
      (.recv (Packet.encode ⟨4, 0, 1, 0, 3, 0, []⟩) (11 / 10))).1.timerStart = 1 ∧
    (sendAndWaitIter {} 4 (some 5) ⟨0, none, none, 3 / 10, 0, 0⟩ 1
      (.recv (Packet.encode ⟨4, 0, 1, 0, 3, 0, []⟩) (11 / 10))).1.retries = 0 ∧
    (sendAndWaitIter {} 4 (some 5)
      (sendAndWaitIter {} 4 (some 5) ⟨0, none, none, 3 / 10, 0, 0⟩ 1
        (.recv (Packet.encode ⟨4, 0, 1, 0, 3, 0, []⟩) (11 / 10))).1 2
      (.recv [] (5 / 2))).1.sends = 2 ∧
    (sendAndWaitIter {} 4 (some 5)
      (sendAndWaitIter {} 4 (some 5) ⟨0, none, none, 3 / 10, 0, 0⟩ 1
        (.recv (Packet.encode ⟨4, 0, 1, 0, 3, 0, []⟩) (11 / 10))).1 2
      (.recv [] (5 / 2))).1.timerStart = 2 := by
  refine ⟨by decide, by decide, by decide, by decide, by decide, by decide,
    by decide, by decide, by decide⟩

/-- Claim C4 amended: a packet that decodes cleanly but is not the expected
response (wrong type, or an ack different from the expected one) is discarded
and the loop continues without incrementing the retry counter; however, the
pass that received it had already retransmitted the pending packet at its top
and reset the timer start to that send's time, and every subsequent pass —
this is the loop's unconditional first action — retransmits again and resets
the timer start again. -/
theorem rejected_packet_no_retry_but_resend (cfg : SenderConfig)
    (expectType : Nat) (expectAck : Option Nat) (st : WaitState) (now : Rat)
    (data : List Nat) (recvTime : Rat)
    (hok : (Packet.decode data).2 = true)
    (hrej : (Packet.decode data).1.ptype ≠ expectType ∨
      (∃ ea, expectAck = some ea ∧ (Packet.decode data).1.ptype = expectType ∧
        (Packet.decode data).1.ack ≠ ea)) :
    (sendAndWaitIter cfg expectType expectAck st now (.recv data recvTime)).2 =
      WaitOutcome.again ∧
    (sendAndWaitIter cfg expectType expectAck st now (.recv data recvTime)).1.retries =
      st.retries ∧
    (sendAndWaitIter cfg expectType expectAck st now (.recv data recvTime)).1.sends =
      st.sends + 1 ∧
    (sendAndWaitIter cfg expectType expectAck st now (.recv data recvTime)).1.timerStart =
      now ∧
    (∀ st' : WaitState, ∀ now' : Rat, ∀ ev : SockEvent,
      (sendAndWaitIter cfg expectType expectAck st' now' ev).1.sends =
        st'.sends + 1 ∧
      (sendAndWaitIter cfg expectType expectAck st' now' ev).1.timerStart = now') := by
  have hagain :
      (sendAndWaitIter cfg expectType expectAck st now (.recv data recvTime)).2 =
        WaitOutcome.again := by
    simp only [sendAndWaitIter, updateRto]
    rcases hrej with h | ⟨ea, hea, hty, hack⟩
    · rw [if_neg (by simp [hok]), if_pos h]
      split <;> rfl
    · subst hea
      rw [if_neg (by simp [hok]), if_neg (by simp [hty])]
      simp [hack]
  exact ⟨hagain, iter_recv_retries cfg expectType expectAck st now data recvTime,
    (iter_sends_timer cfg expectType expectAck st now _).1,
    (iter_sends_timer cfg expectType expectAck st now _).2,
    fun st' now' ev => iter_sends_timer cfg expectType expectAck st' now' ev⟩

set_option maxRecDepth 16000 in
/-- Witness for the amended claim C4 at the same concrete wrong-ack packet as
the counterexample. -/
theorem rejected_packet_no_retry_but_resend_witness :
    (sendAndWaitIter {} 4 (some 5) ⟨0, none, none, 3 / 10, 0, 0⟩ 1
      (.recv (Packet.encode ⟨4, 0, 1, 0, 3, 0, []⟩) (11 / 10))).2 =
      WaitOutcome.again ∧
    (sendAndWaitIter {} 4 (some 5) ⟨0, none, none, 3 / 10, 0, 0⟩ 1
      (.recv (Packet.encode ⟨4, 0, 1, 0, 3, 0, []⟩) (11 / 10))).1.retries = 0 := by
  have h := rejected_packet_no_retry_but_resend {} 4 (some 5)
    ⟨0, none, none, 3 / 10, 0, 0⟩ 1 (Packet.encode ⟨4, 0, 1, 0, 3, 0, []⟩)
    (11 / 10) (by decide) (Or.inr ⟨5, rfl, by decide, by decide⟩)
  exact ⟨h.1, h.2.1⟩

/-- Total chunk count of send_file: ceil(size / chunk_size) computed as
(size + chunk_size - 1) // chunk_size. -/
def totalChunks (size cs : Nat) : Nat := (size + cs - 1) / cs

/-- The DATA packets send_file builds, in order: one per chunk_id in
range(next_chunk, total_chunks), with seq = chunk_id, the EOF flag on the
last chunk only, and the chunk bytes read from the file as payload. -/
def dataPackets (fid : Nat) (file : List Nat) (cs nextChunk : Nat) : List Packet :=
  (List.range' nextChunk (totalChunks file.length cs - nextChunk)).map fun chunk_id =>
    { ptype := PktType.DATA,
      flags := if chunk_id = totalChunks file.length cs - 1 then FLAG_EOF else 0,
      file_id := fid, seq := chunk_id, ack := 0, chunk_id := chunk_id,
      payload := fileChunk file cs chunk_id }

/-- Counterexample to claim C5 as stated: for a zero-byte file with the
default 1024-byte chunks the total chunk count is zero and the sender's data
loop sends no DATA packet at all — not the single EOF-flagged empty DATA the
claim asserts. -/
theorem zero_byte_single_data_cex :
    totalChunks 0 1024 = 0 ∧ dataPackets 0 [] 1024 0 = [] ∧
    (dataPackets 0 [] 1024 0).length ≠ 1 := by
  refine ⟨by decide, by decide, by decide⟩

/-- Claim C5 amended: for a zero-byte source file the total chunk count is
zero, so the sender sends no DATA packets and proceeds directly from the
handshake to FIN; since no DATA ever arrives, no .part file is created on the
receiver, and finalization (attempted on FIN) returns without renaming
anything. -/
theorem zero_byte_file_behaviour (cs : Nat) (hcs : 0 < cs) (fid : Nat)
    (hash : List Nat → String) (s : SessionMeta) (fs : FsState)
    (hpart : fs.part = none) :
    totalChunks 0 cs = 0 ∧ dataPackets fid [] cs 0 = [] ∧
    finalizeIfComplete hash s fs = fs := by
  have h0 : totalChunks 0 cs = 0 := by
    unfold totalChunks
    exact Nat.div_eq_of_lt (by omega)
  refine ⟨h0, ?_, ?_⟩
  · unfold dataPackets
    simp [h0]
  · simp [finalizeIfComplete, hpart]

/-- Witness for the amended claim C5 with the default chunk size. -/
theorem zero_byte_file_behaviour_witness :
    totalChunks 0 1024 = 0 ∧ dataPackets 9 [] 1024 0 = [] ∧
    finalizeIfComplete (fun _ : List Nat => "h") ⟨9, 0, 1024, "h", 0⟩
      ⟨none, true, none, []⟩ = ⟨none, true, none, []⟩ :=
  zero_byte_file_behaviour 1024 (by decide) 9 (fun _ => "h") ⟨9, 0, 1024, "h", 0⟩
    ⟨none, true, none, []⟩ rfl

/-- The emulator's client map (network_simulator_fixed.py): an
insertion-ordered association of file_id to client address, as a Python dict;
addresses are abstract tokens. -/
abbrev ClientMap := List (Nat × Nat)

/-- extract_file_id_from_packet: requires at least 32 bytes and the leading
magic 0xCA 0xFE, then reads the 8-byte big-endian file_id at offset 6;
version and header-length bytes are not checked. -/
def extract_file_id_from_packet (data : List Nat) : Option Nat :=
  if data.length < 32 then none
  else if data.take 2 ≠ [0xCA, 0xFE] then none
  else some (beRead 8 (data.drop 6))

/-- Dict assignment client_map[file_id] = addr: overwrite in place, append a
new key at the end. -/
def recordClient : ClientMap → Nat → Nat → ClientMap
  | [], fid, addr => [(fid, addr)]
  | (k, v) :: rest, fid, addr =>
    if k = fid then (k, addr) :: rest else (k, v) :: recordClient rest fid addr

/-- Dict lookup client_map.get(file_id). -/
def lookupClient : ClientMap → Nat → Option Nat
  | [], _ => none
  | (k, v) :: rest, fid => if k = fid then some v else lookupClient rest fid

/-- The map effect of handle_client_to_target on one client-side datagram:
record file_id -> client address when the file_id can be extracted, leave the
map alone otherwise (the datagram is forwarded to the fixed target either
way). -/
def handle_client_to_target (m : ClientMap) (data : List Nat)
    (clientAddr : Nat) : ClientMap :=
  match extract_file_id_from_packet data with
  | some fid => recordClient m fid clientAddr
  | none => m

/-- The destinations handle_target_to_client forwards one response datagram
to (each subject to the loss/delay/duplication sampling of forward_packet,
which is not modelled): the mapped client when the extracted file_id has one,
otherwise every known client. -/
def handle_target_to_client (m : ClientMap) (data : List Nat) : List Nat :=
  match extract_file_id_from_packet data with
  | some fid =>
    match lookupClient m fid with
    | some addr => [addr]
    | none => m.map (fun p => p.2)
  | none => m.map (fun p => p.2)

theorem lookup_recordClient (m : ClientMap) (fid addr : Nat) :
    lookupClient (recordClient m fid addr) fid = some addr := by
  induction m with
  | nil => simp [recordClient, lookupClient]
  | cons p rest ih =>
    obtain ⟨k, v⟩ := p
    by_cases hk : k = fid
    · simp [recordClient, lookupClient, hk]
    · simp [recordClient, lookupClient, hk, ih]

/-- Claim C8: a client-side datagram of at least 32 bytes whose first two
bytes are the magic 0xCA 0xFE records the mapping from its 8-byte big-endian
file_id at offset 6 to the client's address (and a datagram failing either
test records nothing); a response datagram whose extracted file_id has a
recorded mapping is forwarded to exactly that client's address, and one with
no mapping — unknown file_id or no extractable file_id — is forwarded to
every known client. -/
theorem emulator_maps_and_routes (m : ClientMap) (data : List Nat)
    (clientAddr : Nat) :
    (32 ≤ data.length → data.take 2 = [0xCA, 0xFE] →
      extract_file_id_from_packet data = some (beRead 8 (data.drop 6)) ∧
      lookupClient (handle_client_to_target m data clientAddr)
        (beRead 8 (data.drop 6)) = some clientAddr) ∧
    (data.length < 32 ∨ data.take 2 ≠ [0xCA, 0xFE] →
      extract_file_id_from_packet data = none ∧
      handle_client_to_target m data clientAddr = m) ∧
    (∀ fid addr, extract_file_id_from_packet data = some fid →
      lookupClient m fid = some addr →
      handle_target_to_client m data = [addr]) ∧
    (∀ fid, extract_file_id_from_packet data = some fid →
      lookupClient m fid = none →
      handle_target_to_client m data = m.map (fun p => p.2)) ∧
    (extract_file_id_from_packet data = none →
      handle_target_to_client m data = m.map (fun p => p.2)) := by
  refine ⟨?_, ?_, ?_, ?_, ?_⟩
  · intro hlen hmagic
    have hx : extract_file_id_from_packet data = some (beRead 8 (data.drop 6)) := by
      unfold extract_file_id_from_packet
      rw [if_neg (by omega), if_neg (by simp [hmagic])]
    refine ⟨hx, ?_⟩
    unfold handle_client_to_target
    rw [hx]
    exact lookup_recordClient m _ clientAddr
  · intro hbad
    have hx : extract_file_id_from_packet data = none := by
      unfold extract_file_id_from_packet
      rcases hbad with h | h
      · rw [if_pos h]
      · by_cases hl : data.length < 32
        · rw [if_pos hl]
        · rw [if_neg hl, if_pos h]
    refine ⟨hx, ?_⟩
    unfold handle_client_to_target
    rw [hx]
  · intro fid addr hx hl
    simp [handle_target_to_client, hx, hl]
  · intro fid hx hl
    simp [handle_target_to_client, hx, hl]
  · intro hx
    simp [handle_target_to_client, hx]

/-- Witness for claim C8: a well-framed datagram with file_id 7 records the
mapping to client 42; a response with file_id 7 then routes to exactly client
42, while a response with unknown file_id 8 broadcasts to every known
client. -/
theorem emulator_maps_and_routes_witness :
    lookupClient (handle_client_to_target []
      [0xCA, 0xFE, 1, 3, 0, 32, 0, 0, 0, 0, 0, 0, 0, 7, 0, 0, 0, 0,
        0, 0, 0, 0, 0, 0, 0, 0, 0, 0, 0, 0, 0, 0] 42) 7 = some 42 ∧
    handle_target_to_client [(7, 42)]
      [0xCA, 0xFE, 1, 4, 0, 32, 0, 0, 0, 0, 0, 0, 0, 7, 0, 0, 0, 0,
        0, 0, 0, 0, 0, 0, 0, 0, 0, 0, 0, 0, 0, 0] = [42] ∧
    handle_target_to_client [(7, 42)]
      [0xCA, 0xFE, 1, 4, 0, 32, 0, 0, 0, 0, 0, 0, 0, 8, 0, 0, 0, 0,
        0, 0, 0, 0, 0, 0, 0, 0, 0, 0, 0, 0, 0, 0] = [42] := by
  refine ⟨?_, ?_, ?_⟩
  · exact (((emulator_maps_and_routes []
      [0xCA, 0xFE, 1, 3, 0, 32, 0, 0, 0, 0, 0, 0, 0, 7, 0, 0, 0, 0,
        0, 0, 0, 0, 0, 0, 0, 0, 0, 0, 0, 0, 0, 0] 42).1 (by decide)
      (by decide)).2).trans (by decide)
  · exact ((emulator_maps_and_routes [(7, 42)]
      [0xCA, 0xFE, 1, 4, 0, 32, 0, 0, 0, 0, 0, 0, 0, 7, 0, 0, 0, 0,
        0, 0, 0, 0, 0, 0, 0, 0, 0, 0, 0, 0, 0, 0] 0).2.2.1 7 42 (by decide)
      (by decide)).trans (by decide)
  · exact ((emulator_maps_and_routes [(7, 42)]
      [0xCA, 0xFE, 1, 4, 0, 32, 0, 0, 0, 0, 0, 0, 0, 8, 0, 0, 0, 0,
        0, 0, 0, 0, 0, 0, 0, 0, 0, 0, 0, 0, 0, 0] 0).2.2.2.1 8 (by decide)
      (by decide)).trans (by decide)

end Rdt
